import Mathlib

/-!
Verification of the WADealer multi-account messaging orchestrator.

Shallow embedding of the core modules:
* `HumanDelayM` — `humanDelay` from `human-delay.js` (Gaussian draws are passed
  in as explicit rational parameters, since `gaussianRandom` is
  `mean + z * std` for an unbounded Box-Muller draw `z`).
* `SessionSM` — the per-account connection state machine from `session.js`
  (`connection.update` close/open handling, exponential backoff).
* Further sections model the send queue, campaign control, LID alias maps,
  the AI responder validation and the AI auto-reply engine.

JS `number` arithmetic is modelled over `ℚ` (the values involved are far from
double-precision rounding boundaries), `Math.floor` as `Int.floor`.
-/

namespace HumanDelayM

/-- `gaussianRandom(mean, stdDev)` from human-delay.js: Box-Muller produces
`mean + z * stdDev` where `z` ranges over the reals; `z` is made explicit. -/
def gaussianRandom (mean stdDev z : ℚ) : ℚ := mean + z * stdDev

/-- JS `Math.floor` on a rational, returned as a rational. -/
def jsFloor (q : ℚ) : ℚ := (⌊q⌋ : ℚ)

/-- `humanDelay(minSec, maxSec, index, total)` from human-delay.js.
`distractRoll` is the outcome of `Math.random() < 0.08`; `zDistract` and
`zNormal` are the Box-Muller draws of the two `gaussianRandom` call sites.
`total` is accepted (as in the source) but unused by the source body. -/
def humanDelay (minSec maxSec : ℚ) (index total : ℕ)
    (distractRoll : Bool) (zDistract zNormal : ℚ) : ℚ :=
  let baseMean := (minSec + maxSec) / 2
  let baseStd := (maxSec - minSec) / 4
  let mean0 := if index < 5 then baseMean * (7/10) else baseMean
  let std := if index < 5 then baseStd * (1/2) else baseStd
  let mean := if index > 30 then mean0 * min (1 + ((index : ℚ) - 30) * (2/100)) 2 else mean0
  let _ := total
  if index > 5 ∧ distractRoll = true then
    max minSec (jsFloor (gaussianRandom (mean * 3) (mean * (1/2)) zDistract))
  else
    let delay := gaussianRandom mean std zNormal
    let clamped := max (minSec * (1/2)) (min delay (maxSec * (5/2)))
    max 1 (jsFloor clamped)

end HumanDelayM

namespace SessionSM

/-- Session status values used by session.js. -/
inductive SStatus where
  | offline
  | initializing
  | qrPending
  | online
  | banned
  deriving DecidableEq, Repr

/-- The part of a `Session`'s state touched by the connection.update handler.
`credsPresent` models the on-disk Baileys credential directory;
`pendingReconnect` models the `_reconnectTimer` (delay in ms of the scheduled
`start()` call, `none` when no timer is pending from this event). -/
structure Sess where
  status : SStatus
  stopped : Bool
  reconnectAttempts : ℕ
  retried401 : Bool
  credsPresent : Bool
  pendingReconnect : Option ℕ
  deriving DecidableEq, Repr

/-- `Session._scheduleReconnect` (session.js): exponential backoff
`min(5000 * 2^attempts, 60000)` ms, incrementing `attempts`. -/
def scheduleReconnect (s : Sess) : Sess :=
  if s.stopped then s
  else
    { s with
      reconnectAttempts := s.reconnectAttempts + 1
      status := .initializing
      pendingReconnect := some (min (5000 * 2 ^ s.reconnectAttempts) 60000) }

/-- `connection === 'open'` branch of the connection.update handler. -/
def handleOpen (s : Sess) : Sess :=
  { s with
    status := .online
    reconnectAttempts := 0
    retried401 := false
    pendingReconnect := none }

/-- `connection === 'close'` branch of the connection.update handler, keyed by
the Boom status code.  `DisconnectReason.loggedOut = 401` and
`DisconnectReason.restartRequired = 515` in Baileys. -/
def handleClose (s : Sess) (code : ℕ) : Sess :=
  if code = 401 then
    if s.retried401 = false then
      { s with
        retried401 := true
        status := .initializing
        pendingReconnect := some 5000 }
    else
      { s with
        retried401 := false
        credsPresent := false
        reconnectAttempts := 0
        status := .offline
        pendingReconnect := none }
  else if code = 403 then
    { s with reconnectAttempts := 0, status := .banned, pendingReconnect := none }
  else if code = 440 then
    { s with reconnectAttempts := 0, status := .offline, pendingReconnect := none }
  else if code = 515 then
    { s with status := .initializing, pendingReconnect := some 2000 }
  else
    scheduleReconnect s

/-- A freshly connected session: just went online, counters reset. -/
def fresh : Sess :=
  { status := .online
    stopped := false
    reconnectAttempts := 0
    retried401 := false
    credsPresent := true
    pendingReconnect := none }

/-- Iterate `n` transport closes with a fixed reason code, collecting the
scheduled reconnect delays in order. -/
def closeDelays (s : Sess) (code : ℕ) : ℕ → List ℕ
  | 0 => []
  | n + 1 =>
    let s' := handleClose s code
    match s'.pendingReconnect with
    | some d => d :: closeDelays s' code n
    | none => closeDelays s' code n

end SessionSM

namespace SessionSM

theorem scheduleReconnect_delay (s : Sess) (h : s.stopped = false) :
    (scheduleReconnect s).pendingReconnect
      = some (min (5000 * 2 ^ s.reconnectAttempts) 60000) ∧
    (scheduleReconnect s).reconnectAttempts = s.reconnectAttempts + 1 := by
  simp [scheduleReconnect, h]

theorem handleClose_unrecognized (s : Sess) (code : ℕ)
    (h401 : code ≠ 401) (h403 : code ≠ 403) (h440 : code ≠ 440) (h515 : code ≠ 515) :
    handleClose s code = scheduleReconnect s := by
  simp [handleClose, h401, h403, h440, h515]

theorem scheduleReconnect_stopped (s : Sess) :
    (scheduleReconnect s).stopped = s.stopped := by
  unfold scheduleReconnect
  split <;> rfl

theorem closeDelays_formula (code : ℕ)
    (h401 : code ≠ 401) (h403 : code ≠ 403) (h440 : code ≠ 440) (h515 : code ≠ 515) :
    ∀ (n : ℕ) (s : Sess), s.stopped = false →
      closeDelays s code n
        = (List.range n).map
            (fun i => min (5000 * 2 ^ (s.reconnectAttempts + i)) 60000) := by
  intro n
  induction n with
  | zero => intro s _; simp [closeDelays]
  | succ n ih =>
    intro s hs
    have hcl : handleClose s code = scheduleReconnect s :=
      handleClose_unrecognized s code h401 h403 h440 h515
    have hd := scheduleReconnect_delay s hs
    have hs' : (handleClose s code).stopped = false := by
      rw [hcl, scheduleReconnect_stopped]; exact hs
    rw [closeDelays, hcl, hd.1]
    have hrec := ih (scheduleReconnect s) (by rw [scheduleReconnect_stopped]; exact hs)
    rw [hrec, hd.2, List.range_succ_eq_map]
    simp [List.map_map, Function.comp, Nat.add_comm, Nat.add_assoc, Nat.add_left_comm]

/-- C7: the n-th consecutive close with an unrecognized reason code (starting
from `reconnectAttempts = n - 1`) schedules a reconnect after exactly
`min(5000 * 2^(n-1), 60000)` ms and increments the counter; five consecutive
such closes from a fresh connection yield delays 5000, 10000, 20000, 40000,
60000 ms, and a successful connect resets the counter to 0. -/
theorem C7_exponential_backoff (s : Sess) (code n : ℕ)
    (hs : s.stopped = false) (hn : s.reconnectAttempts = n)
    (h401 : code ≠ 401) (h403 : code ≠ 403) (h440 : code ≠ 440) (h515 : code ≠ 515) :
    (handleClose s code).pendingReconnect = some (min (5000 * 2 ^ n) 60000)
    ∧ (handleClose s code).reconnectAttempts = n + 1
    ∧ closeDelays fresh code 5 = [5000, 10000, 20000, 40000, 60000]
    ∧ (handleOpen s).reconnectAttempts = 0 := by
  have hcl : handleClose s code = scheduleReconnect s :=
    handleClose_unrecognized s code h401 h403 h440 h515
  have hd := scheduleReconnect_delay s hs
  refine ⟨by rw [hcl, hd.1, hn], by rw [hcl, hd.2, hn], ?_, by simp [handleOpen]⟩
  rw [closeDelays_formula code h401 h403 h440 h515 5 fresh rfl]
  norm_num [fresh, List.range_succ]

theorem C7_witness :
    fresh.stopped = false ∧ fresh.reconnectAttempts = 0
    ∧ ((handleClose fresh 428).pendingReconnect = some (min (5000 * 2 ^ 0) 60000)
       ∧ (handleClose fresh 428).reconnectAttempts = 0 + 1
       ∧ closeDelays fresh 428 5 = [5000, 10000, 20000, 40000, 60000]
       ∧ (handleOpen fresh).reconnectAttempts = 0) :=
  ⟨rfl, rfl,
    C7_exponential_backoff fresh 428 0 rfl rfl
      (by decide) (by decide) (by decide) (by decide)⟩

/-- C5: a 401/logged-out close on a session that has not yet retried keeps the
credentials, schedules a single retry after 5 s with status Initializing; a
second consecutive 401 close clears the credentials and goes Offline with no
retry scheduled; a successful connect resets the first-occurrence flag. -/
theorem C5_unauthorized_close (s : Sess) :
    (s.retried401 = false →
        (handleClose s 401).status = .initializing
      ∧ (handleClose s 401).credsPresent = s.credsPresent
      ∧ (handleClose s 401).pendingReconnect = some 5000
      ∧ (handleClose s 401).retried401 = true)
    ∧ (s.retried401 = true →
        (handleClose s 401).credsPresent = false
      ∧ (handleClose s 401).status = .offline
      ∧ (handleClose s 401).pendingReconnect = none
      ∧ (handleClose s 401).retried401 = false)
    ∧ (handleOpen s).retried401 = false := by
  refine ⟨fun h => ?_, fun h => ?_, by simp [handleOpen]⟩
  · simp [handleClose, h]
  · simp [handleClose, h]

theorem C5_witness :
    ((handleClose fresh 401).status = .initializing
      ∧ (handleClose fresh 401).credsPresent = fresh.credsPresent
      ∧ (handleClose fresh 401).pendingReconnect = some 5000
      ∧ (handleClose fresh 401).retried401 = true)
    ∧ ((handleClose (handleClose fresh 401) 401).credsPresent = false
      ∧ (handleClose (handleClose fresh 401) 401).status = .offline
      ∧ (handleClose (handleClose fresh 401) 401).pendingReconnect = none
      ∧ (handleClose (handleClose fresh 401) 401).retried401 = false) :=
  ⟨(C5_unauthorized_close fresh).1 rfl,
   (C5_unauthorized_close (handleClose fresh 401)).2.1 (by decide)⟩

end SessionSM

namespace HumanDelayM

theorem clampFloor_bounds (a b d : ℚ) (hab : a ≤ b) (hb1 : 1 ≤ b) :
    ∃ n : ℤ, max 1 (jsFloor (max a (min d b))) = (n : ℚ)
      ∧ 1 ≤ (n : ℚ) ∧ a - 1 < (n : ℚ) ∧ (n : ℚ) ≤ b := by
  set c : ℚ := max a (min d b) with hc
  have hca : a ≤ c := le_max_left _ _
  have hcb : c ≤ b := max_le hab (min_le_right _ _)
  refine ⟨max 1 ⌊c⌋, ?_, ?_, ?_, ?_⟩
  · rw [jsFloor, Int.cast_max, Int.cast_one]
  · exact_mod_cast le_max_left (1 : ℤ) ⌊c⌋
  · have h1 : c - 1 < (⌊c⌋ : ℚ) := Int.sub_one_lt_floor c
    have h2 : ((⌊c⌋ : ℤ) : ℚ) ≤ ((max 1 ⌊c⌋ : ℤ) : ℚ) := by
      exact_mod_cast le_max_right (1 : ℤ) ⌊c⌋
    linarith
  · have h1 : ((⌊c⌋ : ℤ) : ℚ) ≤ b := le_trans (Int.floor_le c) hcb
    have h2 : ((max 1 ⌊c⌋ : ℤ) : ℚ) = max (1 : ℚ) ((⌊c⌋ : ℤ) : ℚ) := by
      rw [Int.cast_max, Int.cast_one]
    rw [h2]
    exact max_le hb1 h1

/-- C2 (amended): for `1 ≤ min ≤ max` and any outcome of the random draws in
which the distraction branch is not taken, `humanDelay` returns an integer
`n ≥ 1` with `min*0.5 - 1 < n ≤ max*2.5`. -/
theorem C2_humanDelay_bounds (minSec maxSec : ℚ) (index total : ℕ)
    (roll : Bool) (zD zN : ℚ)
    (h1 : 1 ≤ minSec) (h2 : minSec ≤ maxSec)
    (hnd : ¬(index > 5 ∧ roll = true)) :
    ∃ n : ℤ, humanDelay minSec maxSec index total roll zD zN = (n : ℚ)
      ∧ 1 ≤ (n : ℚ)
      ∧ minSec * (1/2) - 1 < (n : ℚ)
      ∧ (n : ℚ) ≤ maxSec * (5/2) := by
  have hb : (1 : ℚ) ≤ maxSec := le_trans h1 h2
  have hab : minSec * (1/2) ≤ maxSec * (5/2) := by linarith
  have hb1 : (1 : ℚ) ≤ maxSec * (5/2) := by linarith
  simp only [humanDelay]
  rw [if_neg hnd]
  exact clampFloor_bounds _ _ _ hab hb1

theorem C2_witness :
    (1 : ℚ) ≤ 2 ∧ (2 : ℚ) ≤ 4 ∧ ¬((0 : ℕ) > 5 ∧ false = true)
    ∧ ∃ n : ℤ, humanDelay 2 4 0 0 false 0 0 = (n : ℚ)
        ∧ 1 ≤ (n : ℚ)
        ∧ (2 : ℚ) * (1/2) - 1 < (n : ℚ)
        ∧ (n : ℚ) ≤ 4 * (5/2) :=
  ⟨by norm_num, by norm_num, by simp,
    C2_humanDelay_bounds 2 4 0 0 false 0 0 (by norm_num) (by norm_num) (by simp)⟩

/-- C2 counterexample: the distraction branch is not clamped above
(`humanDelay 10 10` at index 6 can return 80 > 25 = max*2.5), and the normal
branch's floor can land below `min*0.5`
(`humanDelay 3 5` at index 0 can return 1 < 1.5 = min*0.5). -/
theorem C2_counterexample :
    humanDelay 10 10 6 100 true 10 0 = 80 ∧ (10 : ℚ) * (5/2) < 80
    ∧ humanDelay 3 5 0 100 false 0 (-24/5) = 1 ∧ (1 : ℚ) < 3 * (1/2) := by
  refine ⟨?_, by norm_num, ?_, by norm_num⟩
  · norm_num [humanDelay, gaussianRandom, jsFloor]
  · norm_num [humanDelay, gaussianRandom, jsFloor]

end HumanDelayM

namespace QueueM

/-- Queue status values of `MessageQueue` (queue.js). -/
inductive QStatus where
  | running
  | paused
  | stopped
  deriving DecidableEq, Repr

/-- Persisted lead status as far as the queue mutates it. -/
inductive LeadSt where
  | pending
  | sentOk
  | failed (msg : String)
  deriving DecidableEq, Repr

/-- A `QueueItem` as built by `Orchestrator.startCampaign`. -/
structure WItem where
  leadId : ℕ
  phone : String
  campaignId : ℕ
  template : String
  sessionPhone : String
  deriving DecidableEq, Repr

/-- The mutable state of one `MessageQueue`. -/
structure MQ where
  items : List WItem
  status : QStatus
  stopSignal : Bool
  processing : Bool
  deriving DecidableEq, Repr

def emptyMQ : MQ := ⟨[], .stopped, false, false⟩

/-- `MessageQueue.add`. -/
def mqAdd (q : MQ) (it : WItem) : MQ := { q with items := q.items ++ [it] }

/-- `MessageQueue.start`: if already processing just mark running, otherwise
reset the stop signal and launch the loop. -/
def mqStart (q : MQ) : MQ :=
  if q.processing then { q with status := .running }
  else { q with status := .running, stopSignal := false, processing := true }

/-- `MessageQueue.pause`. -/
def mqPause (q : MQ) : MQ := { q with status := .paused }

/-- `MessageQueue.stop`: sets the status and the stop signal; does not touch
the item list. -/
def mqStop (q : MQ) : MQ := { q with status := .stopped, stopSignal := true }

/-- `MessageQueue.clear`. -/
def mqClear (q : MQ) : MQ := { q with items := [] }

/-- `Orchestrator.waQueues`, a JS `Map` keyed by session phone. -/
abbrev QMap := List (String × MQ)

def qmGet (qs : QMap) (k : String) : Option MQ :=
  (qs.find? (fun p => p.1 = k)).map (fun p => p.2)

def qmSet : QMap → String → MQ → QMap
  | [], k, v => [(k, v)]
  | (a, b) :: t, k, v => if a = k then (k, v) :: t else (a, b) :: qmSet t k v

/-- `Orchestrator._getOrCreateWaQueue` followed by `queue.add(item)`. -/
def qmAddItem (qs : QMap) (k : String) (it : WItem) : QMap :=
  match qmGet qs k with
  | some q => qmSet qs k (mqAdd q it)
  | none => qmSet qs k (mqAdd emptyMQ it)

/-- Session info as surfaced by `getAllSessionStates` / `dbGetAllSessions`. -/
structure SessInfo where
  id : ℕ
  phone : String
  status : SessionSM.SStatus
  deriving DecidableEq, Repr

structure Campaign where
  id : ℕ
  sessionId : Option ℕ
  templateText : String
  deriving DecidableEq, Repr

structure Lead where
  id : ℕ
  phone : String
  deriving DecidableEq, Repr

def mkItem (l : Lead) (campaignId : ℕ) (template sessionPhone : String) : WItem :=
  ⟨l.id, l.phone, campaignId, template, sessionPhone⟩

/-- The round-robin loop of `startCampaign`:
`sessionPhone = onlineSessions[i % onlineSessions.length]`. -/
def distributeFrom (cid : ℕ) (tmpl : String) (online : List String) :
    ℕ → List Lead → QMap → QMap
  | _, [], qs => qs
  | i, l :: ls, qs =>
    let sp := online.getD (i % online.length) ""
    distributeFrom cid tmpl online (i + 1) ls (qmAddItem qs sp (mkItem l cid tmpl sp))

/-- `Orchestrator.startCampaign`: resolve online sessions (honouring a pinned
session id), round-robin the pending leads, mark the campaign running and
start every queue.  Returns the queue map and the campaign status written to
the repository. -/
def startCampaign (c : Campaign) (leads : List Lead) (sessions : List SessInfo)
    (qs : QMap) : Except String (QMap × String) :=
  if leads.length = 0 then .error "no pending leads"
  else
    let pinned : List String :=
      match c.sessionId with
      | some sid =>
        match sessions.find? (fun s => s.id = sid) with
        | some s => [s.phone]
        | none => []
      | none => []
    let online :=
      if pinned.length = 0 then
        (sessions.filter (fun s => s.status = SessionSM.SStatus.online)).map
          (fun s => s.phone)
      else pinned
    if online.length = 0 then .error "no online sessions"
    else
      let qs1 := distributeFrom c.id c.templateText online 0 leads qs
      .ok (qs1.map (fun p => (p.1, mqStart p.2)), "running")

/-- `Orchestrator.pauseCampaign`: pause every queue, mark campaign paused. -/
def pauseCampaign (qs : QMap) : QMap × String :=
  (qs.map (fun p => (p.1, mqPause p.2)), "paused")

/-- `Orchestrator.stopCampaign`: stop and clear every queue, mark stopped. -/
def stopCampaign (qs : QMap) : QMap × String :=
  (qs.map (fun p => (p.1, mqClear (mqStop p.2))), "stopped")

/-- `MessageQueue._findOnlineSession` for the WhatsApp platform: prefer the
item's own session if online, otherwise fall back to any online session. -/
def findOnlineSession (ss : List (String × SessionSM.SStatus)) (preferred : String) :
    Option String :=
  match ss.find? (fun p => p.1 = preferred) with
  | some p =>
    if p.2 = SessionSM.SStatus.online then some p.1
    else (ss.find? (fun p => p.2 = SessionSM.SStatus.online)).map (fun p => p.1)
  | none => (ss.find? (fun p => p.2 = SessionSM.SStatus.online)).map (fun p => p.1)

/-- Repository state mutated by the queue loop. -/
structure Db where
  leadStatus : ℕ → LeadSt
  campSent : ℕ → ℕ
  campErrors : ℕ → ℕ

/-- Broadcast events emitted during one loop iteration. -/
inductive Ev where
  | queueTick (phone : String) (delaySec : ℕ)
  | waitOffline (sessionPhone : String)
  | dispatched (viaPhone : String) (toPhone : String)
  | statsUpdate (sentDelta errorsDelta inQueueDelta : ℤ)
  deriving DecidableEq, Repr

/-- Environment of one `MessageQueue._process` iteration: the orchestrator's
session registry, the outcome of the nondeterministic draws/calls of this
iteration, and whether `stop()` fired during one of the waits. -/
structure ProcEnv where
  sessions : List (String × SessionSM.SStatus)
  canSend : Bool
  sendResult : Except String Unit
  delaySec : ℕ
  interrupted : Bool

/-- One iteration of the `MessageQueue._process` while-loop (WhatsApp path).
Returns the repository, the queue, the emitted events, and whether the loop
exits after this iteration. -/
def processIter (env : ProcEnv) (db : Db) (q : MQ) : Db × MQ × List Ev × Bool :=
  match q.items with
  | [] => (db, q, [], true)
  | it :: rest =>
    if q.stopSignal = true then (db, q, [], true)
    else if q.status = .paused then (db, q, [], false)
    else
      match findOnlineSession env.sessions it.sessionPhone with
      | none =>
        (db, q, [.waitOffline it.sessionPhone], env.interrupted)
      | some sp =>
        let evs := [Ev.queueTick it.phone env.delaySec]
        if env.interrupted = true then (db, q, evs, true)
        else
          let q1 := { q with items := rest }
          if env.canSend = false then (db, q1, evs, false)
          else
            match env.sendResult with
            | .ok _ =>
              ({ db with
                  leadStatus := Function.update db.leadStatus it.leadId .sentOk
                  campSent := Function.update db.campSent it.campaignId
                    (db.campSent it.campaignId + 1) },
               q1, evs ++ [.dispatched sp it.phone, .statsUpdate 1 0 (-1)], false)
            | .error msg =>
              ({ db with
                  leadStatus := Function.update db.leadStatus it.leadId (.failed msg)
                  campErrors := Function.update db.campErrors it.campaignId
                    (db.campErrors it.campaignId + 1) },
               q1, evs ++ [.dispatched sp it.phone, .statsUpdate 0 1 (-1)], false)

/-- C4: starting a campaign with 10 pending leads and exactly 2 online
sessions (no pinned session) round-robins lead i to session i mod 2, giving
two queues of 5 items each and campaign status running; `pauseCampaign`
pauses both queues without touching their items; `stopCampaign` marks the
campaign stopped and empties both queues. -/
theorem C4_campaign_scenario
    (c : Campaign) (hc : c.sessionId = none)
    (l0 l1 l2 l3 l4 l5 l6 l7 l8 l9 : Lead) (p1 p2 : String) (hne : p1 ≠ p2) :
    let sessions : List SessInfo := [⟨1, p1, .online⟩, ⟨2, p2, .online⟩]
    let leads := [l0, l1, l2, l3, l4, l5, l6, l7, l8, l9]
    let t := c.templateText
    let qeven : MQ :=
      ⟨[mkItem l0 c.id t p1, mkItem l2 c.id t p1, mkItem l4 c.id t p1,
        mkItem l6 c.id t p1, mkItem l8 c.id t p1], .running, false, true⟩
    let qodd : MQ :=
      ⟨[mkItem l1 c.id t p2, mkItem l3 c.id t p2, mkItem l5 c.id t p2,
        mkItem l7 c.id t p2, mkItem l9 c.id t p2], .running, false, true⟩
    startCampaign c leads sessions [] = .ok ([(p1, qeven), (p2, qodd)], "running")
    ∧ qeven.items.length = 5 ∧ qodd.items.length = 5
    ∧ pauseCampaign [(p1, qeven), (p2, qodd)]
        = ([(p1, { qeven with status := .paused }),
            (p2, { qodd with status := .paused })], "paused")
    ∧ stopCampaign [(p1, qeven), (p2, qodd)]
        = ([(p1, ⟨[], .stopped, true, true⟩), (p2, ⟨[], .stopped, true, true⟩)],
           "stopped") := by
  intro sessions leads t qeven qodd
  refine ⟨?_, rfl, rfl, ?_, ?_⟩
  · simp [startCampaign, hc, sessions, leads, t, qeven, qodd, distributeFrom,
      qmAddItem, qmGet, qmSet, mqAdd, mqStart, emptyMQ, mkItem, hne, Ne.symm hne]
  · simp [pauseCampaign, mqPause]
  · simp [stopCampaign, mqStop, mqClear]

theorem C4_witness :
    (some 7 : Option ℕ) = none ∨
    ((⟨7, none, "hey"⟩ : Campaign).sessionId = none
     ∧ ("a" : String) ≠ "b"
     ∧ startCampaign ⟨7, none, "hey"⟩
        [⟨0, "t0"⟩, ⟨1, "t1"⟩, ⟨2, "t2"⟩, ⟨3, "t3"⟩, ⟨4, "t4"⟩,
         ⟨5, "t5"⟩, ⟨6, "t6"⟩, ⟨7, "t7"⟩, ⟨8, "t8"⟩, ⟨9, "t9"⟩]
        [⟨1, "a", .online⟩, ⟨2, "b", .online⟩] []
        = .ok ([("a", ⟨[⟨0, "t0", 7, "hey", "a"⟩, ⟨2, "t2", 7, "hey", "a"⟩,
                        ⟨4, "t4", 7, "hey", "a"⟩, ⟨6, "t6", 7, "hey", "a"⟩,
                        ⟨8, "t8", 7, "hey", "a"⟩], .running, false, true⟩),
                ("b", ⟨[⟨1, "t1", 7, "hey", "b"⟩, ⟨3, "t3", 7, "hey", "b"⟩,
                        ⟨5, "t5", 7, "hey", "b"⟩, ⟨7, "t7", 7, "hey", "b"⟩,
                        ⟨9, "t9", 7, "hey", "b"⟩], .running, false, true⟩)],
               "running")) := by
  refine .inr ⟨rfl, by decide, ?_⟩
  exact (C4_campaign_scenario ⟨7, none, "hey"⟩ rfl
    ⟨0, "t0"⟩ ⟨1, "t1"⟩ ⟨2, "t2"⟩ ⟨3, "t3"⟩ ⟨4, "t4"⟩
    ⟨5, "t5"⟩ ⟨6, "t6"⟩ ⟨7, "t7"⟩ ⟨8, "t8"⟩ ⟨9, "t9"⟩ "a" "b" (by decide)).1

/-- C9: when the head item's send attempt throws, the iteration marks the
lead failed with the error message, increments the campaign error counter,
emits a stats-delta event, keeps the queue status running with the stop
signal clear, and continues with the remaining items; the loop only ever
exits when the queue is empty or `stop()` set the stop signal (possibly
during a wait, `interrupted`). -/
theorem C9_send_failure (env : ProcEnv) (db : Db) (q : MQ) (it : WItem)
    (rest : List WItem) (sp msg : String)
    (hq : q.items = it :: rest) (hrun : q.status = .running)
    (hstop : q.stopSignal = false)
    (hsess : findOnlineSession env.sessions it.sessionPhone = some sp)
    (hint : env.interrupted = false) (hcan : env.canSend = true)
    (hsend : env.sendResult = .error msg) :
    processIter env db q =
      ({ db with
          leadStatus := Function.update db.leadStatus it.leadId (.failed msg)
          campErrors := Function.update db.campErrors it.campaignId
            (db.campErrors it.campaignId + 1) },
       { q with items := rest },
       [.queueTick it.phone env.delaySec, .dispatched sp it.phone,
        .statsUpdate 0 1 (-1)],
       false)
    ∧ ({ q with items := rest } : MQ).status = .running
    ∧ ({ q with items := rest } : MQ).stopSignal = false
    ∧ (∀ (env' : ProcEnv) (db' : Db) (q' : MQ),
         (processIter env' db' q').2.2.2 = true →
         q'.items = [] ∨ q'.stopSignal = true ∨ env'.interrupted = true) := by
  obtain ⟨items, status, stop, proc⟩ := q
  simp only at hq hrun hstop
  subst hq; subst hrun; subst hstop
  refine ⟨?_, rfl, rfl, ?_⟩
  · simp [processIter, hsess, hint, hcan, hsend]
  · intro env' db' q' hexit
    obtain ⟨items', status', stop', proc'⟩ := q'
    cases items' with
    | nil => exact .inl rfl
    | cons it' rest' =>
      by_cases hss : stop' = true
      · exact .inr (.inl hss)
      · by_cases hp : status' = QStatus.paused
        · simp [processIter, hss, hp] at hexit
        · cases hfind : findOnlineSession env'.sessions it'.sessionPhone with
          | none =>
            simp [processIter, hss, hp, hfind] at hexit
            exact .inr (.inr hexit)
          | some sp' =>
            by_cases hi : env'.interrupted = true
            · exact .inr (.inr hi)
            · by_cases hcs : env'.canSend = false
              · simp [processIter, hss, hp, hfind, hi, hcs] at hexit
              · cases hsr : env'.sendResult with
                | ok v => simp [processIter, hss, hp, hfind, hi, hcs, hsr] at hexit
                | error e => simp [processIter, hss, hp, hfind, hi, hcs, hsr] at hexit

def dbInit : Db := ⟨fun _ => .pending, fun _ => 0, fun _ => 0⟩

theorem C9_witness :
    (processIter ⟨[("a", .online)], true, .error "boom", 4, false⟩ dbInit
        ⟨[⟨3, "t", 9, "hi", "a"⟩], .running, false, true⟩).2.1.items = []
    ∧ (processIter ⟨[("a", .online)], true, .error "boom", 4, false⟩ dbInit
        ⟨[⟨3, "t", 9, "hi", "a"⟩], .running, false, true⟩).2.2.2 = false := by
  have h := C9_send_failure ⟨[("a", .online)], true, .error "boom", 4, false⟩
    dbInit ⟨[⟨3, "t", 9, "hi", "a"⟩], .running, false, true⟩
    ⟨3, "t", 9, "hi", "a"⟩ [] "a" "boom" rfl rfl rfl (by decide) rfl rfl rfl
  rw [h.1]
  exact ⟨rfl, rfl⟩

/-- C6 (amended): the 30-second wait applies only when *no* session of the
platform is online — then the item stays at the head and nothing is
dispatched; when the owning session is offline but some session is online,
`_findOnlineSession` falls back to it and the item *is* dispatched through
that other session. -/
theorem C6_offline_head (env : ProcEnv) (db : Db) (q : MQ) (it : WItem)
    (rest : List WItem)
    (hq : q.items = it :: rest) (hrun : q.status = .running)
    (hstop : q.stopSignal = false) (hint : env.interrupted = false) :
    (findOnlineSession env.sessions it.sessionPhone = none →
       processIter env db q = (db, q, [.waitOffline it.sessionPhone], false))
    ∧ (∀ sp, findOnlineSession env.sessions it.sessionPhone = some sp →
        env.canSend = true →
        Ev.dispatched sp it.phone ∈ (processIter env db q).2.2.1
        ∧ (processIter env db q).2.1.items = rest) := by
  obtain ⟨items, status, stop, proc⟩ := q
  simp only at hq hrun hstop
  subst hq; subst hrun; subst hstop
  constructor
  · intro hnone
    simp [processIter, hnone, hint]
  · intro sp hsp hcan
    cases hsr : env.sendResult with
    | ok v => simp [processIter, hsp, hint, hcan, hsr]
    | error e => simp [processIter, hsp, hint, hcan, hsr]

theorem C6_witness :
    processIter ⟨[("A", .offline)], true, .ok (), 4, false⟩ dbInit
        ⟨[⟨3, "t", 9, "hi", "A"⟩], .running, false, true⟩
      = (dbInit, ⟨[⟨3, "t", 9, "hi", "A"⟩], .running, false, true⟩,
         [.waitOffline "A"], false) :=
  (C6_offline_head ⟨[("A", .offline)], true, .ok (), 4, false⟩ dbInit
      ⟨[⟨3, "t", 9, "hi", "A"⟩], .running, false, true⟩
      ⟨3, "t", 9, "hi", "A"⟩ [] rfl rfl rfl rfl).1 (by decide)

/-- C6 counterexample: with the owning session "A" offline but "B" online,
the head item is *not* held back for 30 s — it is dispatched through "B". -/
theorem C6_counterexample :
    findOnlineSession [("A", SessionSM.SStatus.offline),
        ("B", SessionSM.SStatus.online)] "A" = some "B"
    ∧ ("B" : String) ≠ "A"
    ∧ (processIter ⟨[("A", .offline), ("B", .online)], true, .ok (), 7, false⟩
        dbInit ⟨[⟨1, "T", 5, "hi", "A"⟩], .running, false, true⟩).2.1.items = []
    ∧ (processIter ⟨[("A", .offline), ("B", .online)], true, .ok (), 7, false⟩
        dbInit ⟨[⟨1, "T", 5, "hi", "A"⟩], .running, false, true⟩).2.2.1
      = [.queueTick "T" 7, .dispatched "B" "T", .statsUpdate 1 0 (-1)]
    ∧ Ev.waitOffline "A" ∉
        (processIter ⟨[("A", .offline), ("B", .online)], true, .ok (), 7, false⟩
          dbInit ⟨[⟨1, "T", 5, "hi", "A"⟩], .running, false, true⟩).2.2.1 := by
  refine ⟨by decide, by decide, ?_, ?_, ?_⟩ <;>
    simp [processIter, findOnlineSession, dbInit]

end QueueM

namespace LidM

/-- JS `str.replace(/@.*$/, '')`: keep everything before the first `@`. -/
def stripAt (s : String) : String := ⟨s.data.takeWhile (fun c => c ≠ '@')⟩

/-- A JS `Map<string,string>` as an association list; `mGet` is `Map.get`,
`mSet` is `Map.set` (replace in place if the key exists, else append). -/
abbrev SMap := List (String × String)

def mGet : SMap → String → Option String
  | [], _ => none
  | (a, b) :: t, k => if a = k then some b else mGet t k

def mSet : SMap → String → String → SMap
  | [], k, v => [(k, v)]
  | (a, b) :: t, k, v => if a = k then (k, v) :: t else (a, b) :: mSet t k v

/-- A Baileys contact event entry (`{ id, lid }`, absent fields = `""`). -/
structure Contact where
  id : String
  lid : String
  deriving DecidableEq, Repr

/-- `Session._processContacts`: for each contact with a nonempty lid and
phone (and lid ≠ phone), store lid → phone in the session-local map *and* the
orchestrator's global `_lidMap` — unconditionally. -/
def processContacts (loc glob : SMap) : List Contact → SMap × SMap
  | [] => (loc, glob)
  | c :: cs =>
    let lid := stripAt c.lid
    let phone := stripAt c.id
    if lid ≠ "" ∧ phone ≠ "" ∧ lid ≠ phone then
      processContacts (mSet loc lid phone) (mSet glob lid phone) cs
    else
      processContacts loc glob cs

/-- `Orchestrator._resolveLid`: global cache, then the session's local map,
then the DB heuristic (`dbResult`); each hit below the global cache populates
it.  Returns (resolved, global map, session-local map). -/
def resolveLid (glob : SMap) (sessionMap : Option SMap) (dbResult : Option String)
    (lid : String) : Option String × SMap × Option SMap :=
  match mGet glob lid with
  | some v => (some v, glob, sessionMap)
  | none =>
    match sessionMap.bind (fun sm => mGet sm lid) with
    | some v => (some v, mSet glob lid v, sessionMap)
    | none =>
      match dbResult with
      | some v => (some v, mSet glob lid v, sessionMap.map (fun sm => mSet sm lid v))
      | none => (none, glob, sessionMap)

theorem mGet_mSet (m : SMap) (k v k' : String) :
    mGet (mSet m k v) k' = if k = k' then some v else mGet m k' := by
  induction m with
  | nil => simp [mSet, mGet]
  | cons p t ih =>
    obtain ⟨a, b⟩ := p
    by_cases hak : a = k
    · subst hak
      by_cases h : a = k' <;> simp [mSet, mGet, h]
    · by_cases h : a = k'
      · subst h
        have hk : ¬ k = a := fun hh => hak hh.symm
        simp [mSet, mGet, hak, hk]
      · simp [mSet, mGet, hak, h, ih]

/-- C8 (amended): `_resolveLid` never overwrites an existing entry of the
global cache or of the session-local alias map — it returns the cached value
unchanged when the alias is already known, and it stores a mapping only for
an alias that was previously unset (contact-sync `_processContacts`, by
contrast, overwrites unconditionally — see the counterexample). -/
theorem C8_resolveLid_append_only (glob : SMap) (sm : Option SMap)
    (dbr : Option String) (lid : String) :
    ((mGet glob lid).isSome = true →
       resolveLid glob sm dbr lid = (mGet glob lid, glob, sm))
    ∧ (∀ k v, mGet glob k = some v →
        mGet (resolveLid glob sm dbr lid).2.1 k = some v)
    ∧ (∀ sm0, sm = some sm0 → ∀ k v, mGet sm0 k = some v →
        ∃ sm1, (resolveLid glob sm dbr lid).2.2 = some sm1 ∧ mGet sm1 k = some v) := by
  refine ⟨?_, ?_, ?_⟩
  · intro hsome
    cases hg : mGet glob lid with
    | none => rw [hg] at hsome; simp at hsome
    | some v => simp [resolveLid, hg]
  · intro k v hkv
    cases hg : mGet glob lid with
    | some w => simp [resolveLid, hg, hkv]
    | none =>
      have hk : ¬ lid = k := by
        intro h; rw [h] at hg; rw [hg] at hkv; cases hkv
      cases hb : sm.bind (fun sm => mGet sm lid) with
      | some w => simp [resolveLid, hg, hb, mGet_mSet, hk, hkv]
      | none =>
        cases dbr with
        | some w => simp [resolveLid, hg, hb, mGet_mSet, hk, hkv]
        | none => simp [resolveLid, hg, hb, hkv]
  · intro sm0 hsm k v hkv
    subst hsm
    cases hg : mGet glob lid with
    | some w => exact ⟨sm0, by simp [resolveLid, hg], hkv⟩
    | none =>
      cases hb : mGet sm0 lid with
      | some w =>
        exact ⟨sm0, by simp [resolveLid, hg, hb], hkv⟩
      | none =>
        have hk : ¬ lid = k := by
          intro h; rw [h] at hb; rw [hb] at hkv; cases hkv
        cases dbr with
        | some w =>
          refine ⟨mSet sm0 lid w, by simp [resolveLid, hg, hb], ?_⟩
          simp [mGet_mSet, hk, hkv]
        | none => exact ⟨sm0, by simp [resolveLid, hg, hb], hkv⟩

theorem C8_witness :
    (mGet [("5", "111")] "5").isSome = true
    ∧ resolveLid [("5", "111")] (some []) (some "999") "5"
        = (some "111", [("5", "111")], some [])
    ∧ mGet (resolveLid [("5", "111")] none none "7").2.1 "5" = some "111" := by
  refine ⟨by decide, ?_, ?_⟩
  · exact (C8_resolveLid_append_only [("5", "111")] (some []) (some "999") "5").1
      (by decide)
  · exact (C8_resolveLid_append_only [("5", "111")] none none "7").2.1
      "5" "111" (by decide)

/-- C8 counterexample: `_processContacts` overwrites an existing alias entry
with a different value — two contact-sync events for the same lid with
different phone numbers leave the later phone in both maps. -/
theorem C8_counterexample :
    mGet (processContacts [] [] [⟨"111@s.whatsapp.net", "5@lid"⟩]).2 "5"
      = some "111"
    ∧ mGet (processContacts
        (processContacts [] [] [⟨"111@s.whatsapp.net", "5@lid"⟩]).1
        (processContacts [] [] [⟨"111@s.whatsapp.net", "5@lid"⟩]).2
        [⟨"222@s.whatsapp.net", "5@lid"⟩]).2 "5" = some "222"
    ∧ ("111" : String) ≠ "222" := by
  refine ⟨?_, ?_, by decide⟩ <;> rfl

end LidM

namespace AutoReplyFn

structure ARLead where
  id : ℕ
  campaignId : ℕ
  deriving DecidableEq, Repr

structure ARCampaign where
  id : ℕ
  status : String
  deriving DecidableEq, Repr

/-- Inputs consumed by one `_autoReply` run: the campaign table, the length
of the stored conversation, the `generateAutoReply` outcome, whether the
owning session is online, and the current clock. -/
structure AREnv where
  campaigns : List ARCampaign
  messagesLen : ℕ
  aiReply : Option String
  sessionOnline : Bool
  now : ℕ

/-- Orchestrator state touched by `_autoReply` for one contact/session pair:
the `_replyInProgress` lock, the `_lastAiReplyTime` cooldown entry and the
`_dailySent` counter for today. -/
structure ARState where
  replyInProgress : Bool
  lastAiReplyTime : Option ℕ
  dailyCount : ℕ
  deriving DecidableEq, Repr

/-- `Date.now() - lastReply < 60_000` with a missing entry counting as no
cooldown. -/
def cooldownActive (last : Option ℕ) (now : ℕ) : Bool :=
  match last with
  | some l => decide (now < l + 60000)
  | none => false

/-- `Orchestrator._autoReply` as a state transformer; the returned Bool says
whether an outbound AI reply was sent.  `DAILY_LIMIT = 30`. -/
def autoReplyRun (env : AREnv) (st : ARState) (lead : ARLead) : ARState × Bool :=
  if st.replyInProgress = true then (st, false)
  else if cooldownActive st.lastAiReplyTime env.now = true then (st, false)
  else
    let s1 : ARState := { st with replyInProgress := true }
    let result : ARState × Bool :=
      match env.campaigns.find? (fun c => c.id = lead.campaignId) with
      | none => (s1, false)
      | some c =>
        if c.status = "stopped" then (s1, false)
        else if env.messagesLen < 2 then (s1, false)
        else
          match env.aiReply with
          | none => (s1, false)
          | some _ =>
            if ¬ s1.dailyCount < 30 then (s1, false)
            else if env.sessionOnline = false then (s1, false)
            else ({ s1 with
                     dailyCount := s1.dailyCount + 1
                     lastAiReplyTime := some env.now }, true)
    ({ result.1 with replyInProgress := false }, result.2)

/-- C10: when the lead's campaign is missing or stopped and processing was
not skipped by the lock, `_autoReply` sends nothing and returns with the
cooldown timestamp, the daily counter and the (released) lock exactly as
before. -/
theorem C10_stopped_campaign_no_reply (env : AREnv) (st : ARState)
    (lead : ARLead) (hlock : st.replyInProgress = false)
    (hc : env.campaigns.find? (fun c => c.id = lead.campaignId) = none
          ∨ ∃ c, env.campaigns.find? (fun c => c.id = lead.campaignId) = some c
                 ∧ c.status = "stopped") :
    autoReplyRun env st lead = (st, false) := by
  obtain ⟨rip, last, daily⟩ := st
  simp only at hlock
  subst hlock
  by_cases hcool : cooldownActive last env.now = true
  · simp [autoReplyRun, hcool]
  · rcases hc with hnone | ⟨c, hfind, hstat⟩
    · simp [autoReplyRun, hcool, hnone]
    · simp [autoReplyRun, hcool, hfind, hstat]

theorem C10_witness :
    autoReplyRun ⟨[⟨4, "stopped"⟩], 5, some "hello", true, 1000⟩
        ⟨false, some 3, 2⟩ ⟨1, 4⟩ = (⟨false, some 3, 2⟩, false)
    ∧ autoReplyRun ⟨[], 5, some "hello", true, 1000⟩
        ⟨false, none, 0⟩ ⟨1, 4⟩ = (⟨false, none, 0⟩, false) :=
  ⟨C10_stopped_campaign_no_reply ⟨[⟨4, "stopped"⟩], 5, some "hello", true, 1000⟩
      ⟨false, some 3, 2⟩ ⟨1, 4⟩ rfl (.inr ⟨⟨4, "stopped"⟩, by decide, rfl⟩),
   C10_stopped_campaign_no_reply ⟨[], 5, some "hello", true, 1000⟩
      ⟨false, none, 0⟩ ⟨1, 4⟩ rfl (.inl rfl)⟩

end AutoReplyFn

namespace Responder

inductive Dir where
  | inbound
  | outbound
  deriving DecidableEq, Repr

/-- One transcript entry as passed to `generateAutoReply`. -/
structure HMsg where
  direction : Dir
  body : String
  deriving DecidableEq, Repr

def jsLower (s : String) : String := ⟨s.data.map Char.toLower⟩

def jsUpper (s : String) : String := ⟨s.data.map Char.toUpper⟩

def trimLeftList (l : List Char) : List Char := l.dropWhile (fun c => c.isWhitespace)

/-- JS `String.prototype.trim`. -/
def jsTrim (s : String) : String :=
  ⟨(trimLeftList (trimLeftList s.data).reverse).reverse⟩

/-- `body?.toLowerCase().trim()` — the key under which prior messages are
compared and counted. -/
def lowKey (s : String) : String := jsTrim (jsLower s)

/-- `replace(/[?!.,]/g, '')`. -/
def stripPunct (s : String) : String :=
  ⟨s.data.filter (fun c => !(c == '?' || c == '!' || c == '.' || c == ','))⟩

def splitWsList : List Char → List Char → List String
  | [], acc => [⟨acc.reverse⟩]
  | c :: cs, acc =>
    if c.isWhitespace then ⟨acc.reverse⟩ :: splitWsList cs []
    else splitWsList cs (c :: acc)

/-- `split(/\s+/)` up to empty pieces (which the length filter removes). -/
def splitWs (s : String) : List String := splitWsList s.data []

/-- `new Set(x.replace(/[?!.,]/g,'').split(/\s+/).filter(w => w.length > 2))`,
as a duplicate-free list. -/
def wordsOf (s : String) : List String :=
  ((splitWs (stripPunct s)).filter (fun w => 2 < w.length)).dedup

/-- `[...replyWords].filter(w => prevWords.has(w)).length`. -/
def overlapCount (rw pw : List String) : ℕ :=
  (rw.filter (fun w => pw.contains w)).length

/-- The fuzzy check of `generateAutoReply`: applied only when both word sets
have at least two entries; `overlap / max(sizes) ≥ 0.7` as exact arithmetic. -/
def tooSimilar (rl prev : String) : Bool :=
  let rw := wordsOf rl
  let pw := wordsOf prev
  if 2 ≤ rw.length ∧ 2 ≤ pw.length then
    decide (7 * max rw.length pw.length ≤ 10 * overlapCount rw pw)
  else false

/-- The structured JSON response of the chat model, after parsing. -/
structure AiParsed where
  reply : Option String
  shouldStop : Bool
  filled : ℤ
  duplicatesFound : Bool
  deriving DecidableEq, Repr

/-- `replace(/^["']|["']$/g, '')` — drop one leading and one trailing quote. -/
def dropLeadQuote : List Char → List Char
  | c :: rest => if c == '"' || c == '\'' then rest else c :: rest
  | [] => []

def stripEdgeQuotes (s : String) : String :=
  ⟨(dropLeadQuote (dropLeadQuote s.data).reverse).reverse⟩

def truncate200 (s : String) : String :=
  if 200 < s.data.length then ⟨s.data.take 200⟩ else s

/-- `generateAutoReply` (ai-responder.js).  The OpenAI call is abstracted:
`api = none` covers a thrown call, an empty body or unparsable JSON, all of
which return null; `cfg` is whether an API key is configured.
`MAX_FOLLOWUPS = 6`, so the hard cap fires at 7 outbound messages. -/
def generateAutoReply (cfg : Bool) (history : List HMsg) (api : Option AiParsed) :
    Option String :=
  if cfg = false then none
  else
    let ours := history.filter (fun m => m.direction == Dir.outbound)
    if 7 ≤ ours.length then none
    else if ours.any (fun m =>
        (!(lowKey m.body == ""))
        && decide (2 ≤ (ours.filter
             (fun m2 => lowKey m2.body == lowKey m.body)).length)) then none
    else
      match api with
      | none => none
      | some p =>
        match p.reply with
        | none => none
        | some r0 =>
          let r := jsTrim r0
          if r == "" || jsUpper r == "NULL" || p.shouldStop then none
          else if 4 ≤ p.filled then none
          else if p.duplicatesFound = true then none
          else
            let rl := jsTrim (jsLower r)
            if ours.any (fun m =>
                let prev := lowKey m.body
                (!(prev == "")) && ((prev == rl) || tooSimilar rl prev)) then none
            else some (truncate200 (jsTrim (stripEdgeQuotes r)))

/-- C3 (amended): whenever `generateAutoReply` returns a candidate for
sending, that candidate is not an (lowercased, trimmed) exact match of any
prior outbound message of the thread, and the ≥70 % token-overlap rejection
holds against every prior outbound message *whose token set and the
candidate's token set both have at least two entries* (shorter messages are
only exact-checked). -/
theorem C3_validated_reply (history : List HMsg) (p : AiParsed) (r0 out : String)
    (hres : generateAutoReply true history (some p) = some out)
    (hr : p.reply = some r0) :
    ∀ m ∈ history, m.direction = Dir.outbound →
      lowKey m.body ≠ "" →
      lowKey m.body ≠ jsTrim (jsLower (jsTrim r0))
      ∧ tooSimilar (jsTrim (jsLower (jsTrim r0))) (lowKey m.body) = false := by
  simp only [generateAutoReply, hr, if_neg] at hres
  rw [if_neg (by simp)] at hres
  split at hres
  · cases hres
  · split at hres
    · cases hres
    · split at hres
      · cases hres
      · split at hres
        · cases hres
        · split at hres
          · cases hres
          · rename_i hany
            intro m hm hd hne
            have hm' : m ∈ history.filter (fun m => m.direction == Dir.outbound) :=
              List.mem_filter.mpr ⟨hm, by simp [hd]⟩
            split at hres
            · cases hres
            · rename_i hany2
              have h2 : (history.filter (fun m => m.direction == Dir.outbound)).any
                  (fun m =>
                    (!(lowKey m.body == ""))
                    && ((lowKey m.body == jsTrim (jsLower (jsTrim r0)))
                        || tooSimilar (jsTrim (jsLower (jsTrim r0)))
                             (lowKey m.body))) = false := by
                exact Bool.not_eq_true _ ▸ Bool.eq_false_iff.mpr hany2
              have h3 := List.any_eq_false.mp h2 m hm'
              simp only [Bool.and_eq_true, Bool.or_eq_true, beq_iff_eq,
                Bool.not_eq_true', beq_eq_false_iff_ne, not_and, not_or] at h3
              exact ⟨(h3 hne).1, Bool.eq_false_iff.mpr (h3 hne).2⟩

theorem C3_witness :
    generateAutoReply true
        [⟨.outbound, "how are you doing"⟩, ⟨.inbound, "good"⟩]
        (some ⟨some "what is your price", false, 0, false⟩)
      = some "what is your price"
    ∧ lowKey "how are you doing" ≠ jsTrim (jsLower (jsTrim "what is your price"))
    ∧ tooSimilar (jsTrim (jsLower (jsTrim "what is your price")))
        (lowKey "how are you doing") = false := by
  have h := C3_validated_reply
      [⟨.outbound, "how are you doing"⟩, ⟨.inbound, "good"⟩]
      ⟨some "what is your price", false, 0, false⟩
      "what is your price" "what is your price" (by decide) rfl
      ⟨.outbound, "how are you doing"⟩ (by simp) rfl (by decide)
  exact ⟨by decide, h.1, h.2⟩

/-- C3 counterexample: the candidate "ok price?" has 100 % token overlap with
the prior outbound "so price?" (both token sets are `["price"]`), yet
`generateAutoReply` returns it for sending, because the fuzzy check is
skipped whenever either token set has fewer than two entries. -/
theorem C3_counterexample :
    generateAutoReply true
        [⟨.outbound, "so price?"⟩, ⟨.inbound, "600"⟩]
        (some ⟨some "ok price?", false, 0, false⟩) = some "ok price?"
    ∧ wordsOf "ok price?" = ["price"]
    ∧ wordsOf "so price?" = ["price"]
    ∧ 7 * max (wordsOf "ok price?").length (wordsOf "so price?").length
        ≤ 10 * overlapCount (wordsOf "ok price?") (wordsOf "so price?")
    ∧ (wordsOf "ok price?").length ≠ 0 := by
  refine ⟨by decide, by decide, by decide, by decide, by decide⟩

end Responder

namespace LockSys

/-!
Interleaving model of `Orchestrator._autoReply` for one fixed contact.

Each invocation (from `handleReply` or from the `_retryMissedAutoReplies`
sweep) is a task.  The event loop is single-threaded, so the synchronous
block lines 359-372 of orchestrator.js — lock test, cooldown test, lock
acquisition — is one atomic step (`guardAcquire` / `guardSkip…`).  While the
lock is held the task may return early or throw (`abortRun`, the `finally`
releases the lock), or complete `sock.sendMessage` (`sendWire`, the wire
send); the continuation after that await sets `_lastAiReplyTime`
(`recordTime`) before the `finally` clause releases the lock
(`releaseLock`).  Time is a monotone clock stamped on every step.
-/

/-- Program counter of one `_autoReply` task. -/
inductive PC where
  | idle
  | working
  | sentMsg
  | recorded
  | done
  deriving DecidableEq, Repr

/-- Shared state for one contact: who holds `_replyInProgress`, the
`_lastAiReplyTime` entry, the times of all wire sends so far, and the
clock. -/
structure St where
  locked : Option ℕ
  pc : ℕ → PC
  last : Option ℕ
  sends : List ℕ
  now : ℕ

def initSt : St := ⟨none, fun _ => .idle, none, [], 0⟩

/-- The cooldown test passes at time `t`. -/
def cooldownOk (last : Option ℕ) (t : ℕ) : Prop :=
  ∀ l, last = some l → l + 60000 ≤ t

/-- One atomic step of the interleaved system. -/
inductive Step : St → St → Prop
  | guardSkipLock (s : St) (tid t : ℕ) :
      s.pc tid = .idle → s.now ≤ t → s.locked ≠ none →
      Step s { s with pc := Function.update s.pc tid .done, now := t }
  | guardSkipCooldown (s : St) (tid t l : ℕ) :
      s.pc tid = .idle → s.now ≤ t → s.last = some l → t < l + 60000 →
      Step s { s with pc := Function.update s.pc tid .done, now := t }
  | guardAcquire (s : St) (tid t : ℕ) :
      s.pc tid = .idle → s.now ≤ t → s.locked = none → cooldownOk s.last t →
      Step s { s with locked := some tid,
                      pc := Function.update s.pc tid .working, now := t }
  | abortRun (s : St) (tid t : ℕ) :
      s.pc tid = .working → s.now ≤ t → s.locked = some tid →
      Step s { s with locked := none,
                      pc := Function.update s.pc tid .done, now := t }
  | sendWire (s : St) (tid t : ℕ) :
      s.pc tid = .working → s.now ≤ t → s.locked = some tid →
      Step s { s with pc := Function.update s.pc tid .sentMsg,
                      sends := t :: s.sends, now := t }
  | recordTime (s : St) (tid t : ℕ) :
      s.pc tid = .sentMsg → s.now ≤ t → s.locked = some tid →
      Step s { s with pc := Function.update s.pc tid .recorded,
                      last := some t, now := t }
  | releaseLock (s : St) (tid t : ℕ) :
      s.pc tid = .recorded → s.now ≤ t → s.locked = some tid →
      Step s { s with locked := none,
                      pc := Function.update s.pc tid .done, now := t }

inductive Reachable : St → Prop
  | init : Reachable initSt
  | step {s s' : St} : Reachable s → Step s s' → Reachable s'

/-- Newest-first send times with consecutive gaps of at least 60 s. -/
def Gap (l : List ℕ) : Prop := l.Chain' (fun a b => b + 60000 ≤ a)

/-- Inductive invariant of the system. -/
structure Inv (s : St) : Prop where
  sends_le : ∀ x ∈ s.sends, x ≤ s.now
  last_le : ∀ l, s.last = some l → l ≤ s.now
  gap : Gap s.sends
  owner : ∀ tid, (s.pc tid = .working ∨ s.pc tid = .sentMsg ∨ s.pc tid = .recorded) →
    s.locked = some tid
  unlocked_last : s.locked = none → ∀ x ∈ s.sends, ∃ l, s.last = some l ∧ x ≤ l
  working_gap : ∀ tid, s.locked = some tid → s.pc tid = .working →
    ∀ x ∈ s.sends, x + 60000 ≤ s.now
  working_last : ∀ tid, s.locked = some tid → s.pc tid = .working →
    ∀ x ∈ s.sends, ∃ l, s.last = some l ∧ x ≤ l
  recorded_last : ∀ tid, s.locked = some tid → s.pc tid = .recorded →
    ∀ x ∈ s.sends, ∃ l, s.last = some l ∧ x ≤ l

theorem inv_init : Inv initSt := by
  refine ⟨?_, ?_, ?_, ?_, ?_, ?_, ?_, ?_⟩ <;>
    simp [initSt, Gap]

theorem inv_step {s s' : St} (hi : Inv s) (hst : Step s s') : Inv s' := by
  cases hst with
  | guardSkipLock tid t hpc hnow hlock =>
    refine ⟨fun x hx => le_trans (hi.sends_le x hx) hnow,
            fun l hl => le_trans (hi.last_le l hl) hnow,
            hi.gap, ?_, ?_, ?_, ?_, ?_⟩
    · intro tid' hb
      by_cases he : tid' = tid
      · subst he
        simp only [Function.update_same] at hb
        rcases hb with h | h | h <;> cases h
      · simp only [Function.update_noteq he] at hb
        exact hi.owner tid' hb
    · intro h; exact absurd h hlock
    · intro tid' hl' hw x hx
      by_cases he : tid' = tid
      · subst he; simp only [Function.update_same] at hw; cases hw
      · simp only [Function.update_noteq he] at hw
        exact le_trans (hi.working_gap tid' hl' hw x hx) hnow
    · intro tid' hl' hw x hx
      by_cases he : tid' = tid
      · subst he; simp only [Function.update_same] at hw; cases hw
      · simp only [Function.update_noteq he] at hw
        exact hi.working_last tid' hl' hw x hx
    · intro tid' hl' hw x hx
      by_cases he : tid' = tid
      · subst he; simp only [Function.update_same] at hw; cases hw
      · simp only [Function.update_noteq he] at hw
        exact hi.recorded_last tid' hl' hw x hx
  | guardSkipCooldown tid t l hpc hnow hlast hcool =>
    refine ⟨fun x hx => le_trans (hi.sends_le x hx) hnow,
            fun l' hl' => le_trans (hi.last_le l' hl') hnow,
            hi.gap, ?_, ?_, ?_, ?_, ?_⟩
    · intro tid' hb
      by_cases he : tid' = tid
      · subst he
        simp only [Function.update_same] at hb
        rcases hb with h | h | h <;> cases h
      · simp only [Function.update_noteq he] at hb
        exact hi.owner tid' hb
    · intro h x hx
      exact hi.unlocked_last h x hx
    · intro tid' hl' hw x hx
      by_cases he : tid' = tid
      · subst he; simp only [Function.update_same] at hw; cases hw
      · simp only [Function.update_noteq he] at hw
        exact le_trans (hi.working_gap tid' hl' hw x hx) hnow
    · intro tid' hl' hw x hx
      by_cases he : tid' = tid
      · subst he; simp only [Function.update_same] at hw; cases hw
      · simp only [Function.update_noteq he] at hw
        exact hi.working_last tid' hl' hw x hx
    · intro tid' hl' hw x hx
      by_cases he : tid' = tid
      · subst he; simp only [Function.update_same] at hw; cases hw
      · simp only [Function.update_noteq he] at hw
        exact hi.recorded_last tid' hl' hw x hx
  | guardAcquire tid t hpc hnow hlk hcool =>
    refine ⟨fun x hx => le_trans (hi.sends_le x hx) hnow,
            fun l hl => le_trans (hi.last_le l hl) hnow,
            hi.gap, ?_, ?_, ?_, ?_, ?_⟩
    · intro tid' hb
      by_cases he : tid' = tid
      · subst he; rfl
      · simp only [Function.update_noteq he] at hb
        have := hi.owner tid' hb
        simp only [hlk] at this
        cases this
    · intro h; cases h
    · intro tid' hl' _ x hx
      obtain ⟨l, hlast, hxl⟩ := hi.unlocked_last hlk x hx
      have := hcool l hlast
      show x + 60000 ≤ t
      omega
    · intro tid' hl' _ x hx
      exact hi.unlocked_last hlk x hx
    · intro tid' hl' hr
      have he : tid = tid' := Option.some.inj hl'
      subst he
      simp only [Function.update_same] at hr
      cases hr
  | abortRun tid t hpc hnow hl =>
    refine ⟨fun x hx => le_trans (hi.sends_le x hx) hnow,
            fun l hl' => le_trans (hi.last_le l hl') hnow,
            hi.gap, ?_, ?_, ?_, ?_, ?_⟩
    · intro tid' hb
      by_cases he : tid' = tid
      · subst he
        simp only [Function.update_same] at hb
        rcases hb with h | h | h <;> cases h
      · simp only [Function.update_noteq he] at hb
        have := hi.owner tid' hb
        simp only [hl] at this
        exact absurd (Option.some.inj this) (fun hh => he hh.symm)
    · intro _ x hx
      exact hi.working_last tid hl hpc x hx
    · intro tid' hl' _; cases hl'
    · intro tid' hl' _; cases hl'
    · intro tid' hl' _; cases hl'
  | sendWire tid t hpc hnow hl =>
    refine ⟨?_, fun l hl' => le_trans (hi.last_le l hl') hnow,
            ?_, ?_, ?_, ?_, ?_, ?_⟩
    · intro x hx
      rcases List.mem_cons.mp hx with h | hx'
      · exact le_of_eq h
      · exact le_trans (hi.sends_le x hx') hnow
    · refine List.chain'_cons'.mpr ⟨?_, hi.gap⟩
      intro y hy
      have hy' : y ∈ s.sends := List.mem_of_mem_head? hy
      have := hi.working_gap tid hl hpc y hy'
      omega
    · intro tid' hb
      by_cases he : tid' = tid
      · subst he; exact hl
      · simp only [Function.update_noteq he] at hb
        exact hi.owner tid' hb
    · intro h
      simp only [hl] at h
      cases h
    · intro tid' hl' hw
      simp only [hl] at hl'
      have he : tid = tid' := Option.some.inj hl'
      subst he
      simp only [Function.update_same] at hw
      cases hw
    · intro tid' hl' hw
      simp only [hl] at hl'
      have he : tid = tid' := Option.some.inj hl'
      subst he
      simp only [Function.update_same] at hw
      cases hw
    · intro tid' hl' hr
      simp only [hl] at hl'
      have he : tid = tid' := Option.some.inj hl'
      subst he
      simp only [Function.update_same] at hr
      cases hr
  | recordTime tid t hpc hnow hl =>
    refine ⟨fun x hx => le_trans (hi.sends_le x hx) hnow,
            ?_, hi.gap, ?_, ?_, ?_, ?_, ?_⟩
    · intro l hl'
      cases hl'
      exact le_refl t
    · intro tid' hb
      by_cases he : tid' = tid
      · subst he; exact hl
      · simp only [Function.update_noteq he] at hb
        exact hi.owner tid' hb
    · intro h
      simp only [hl] at h
      cases h
    · intro tid' hl' hw
      simp only [hl] at hl'
      have he : tid = tid' := Option.some.inj hl'
      subst he
      simp only [Function.update_same] at hw
      cases hw
    · intro tid' hl' hw
      simp only [hl] at hl'
      have he : tid = tid' := Option.some.inj hl'
      subst he
      simp only [Function.update_same] at hw
      cases hw
    · intro tid' hl' hr x hx
      exact ⟨t, rfl, le_trans (hi.sends_le x hx) hnow⟩
  | releaseLock tid t hpc hnow hl =>
    refine ⟨fun x hx => le_trans (hi.sends_le x hx) hnow,
            fun l hl' => le_trans (hi.last_le l hl') hnow,
            hi.gap, ?_, ?_, ?_, ?_, ?_⟩
    · intro tid' hb
      by_cases he : tid' = tid
      · subst he
        simp only [Function.update_same] at hb
        rcases hb with h | h | h <;> cases h
      · simp only [Function.update_noteq he] at hb
        have := hi.owner tid' hb
        simp only [hl] at this
        exact absurd (Option.some.inj this) (fun hh => he hh.symm)
    · intro _ x hx
      exact hi.recorded_last tid hl hpc x hx
    · intro tid' hl' _; cases hl'
    · intro tid' hl' _; cases hl'
    · intro tid' hl' _; cases hl'

theorem inv_reachable {s : St} (h : Reachable s) : Inv s := by
  induction h with
  | init => exact inv_init
  | step _ hst ih => exact inv_step ih hst

theorem gap_all (x : ℕ) (l : List ℕ) (h : Gap (x :: l)) :
    ∀ y ∈ l, y + 60000 ≤ x := by
  induction l generalizing x with
  | nil => intro y hy; cases hy
  | cons z l' ih =>
    intro y hy
    have hxz : z + 60000 ≤ x := (List.chain'_cons.mp h).1
    rcases List.mem_cons.mp hy with rfl | hy'
    · exact hxz
    · have := ih z (List.chain'_cons.mp h).2 y hy'
      omega

theorem gap_window (l : List ℕ) (hg : Gap l) (a : ℕ) :
    l.countP (fun x => decide (a ≤ x ∧ x < a + 60000)) ≤ 1 := by
  induction l with
  | nil => simp
  | cons x t ih =>
    have ht : Gap t := (List.chain'_cons'.mp hg).2
    by_cases hx : a ≤ x ∧ x < a + 60000
    · have hzero : t.countP (fun y => decide (a ≤ y ∧ y < a + 60000)) = 0 := by
        apply List.countP_eq_zero.mpr
        intro y hy
        have hle := gap_all x t hg y hy
        simp only [decide_eq_true_eq]
        omega
      rw [List.countP_cons, hzero]
      simp [hx]
    · have h1 := ih ht
      rw [List.countP_cons]
      simp only [decide_eq_true_eq, if_neg hx, add_zero]
      exact h1

/-- C1: under every interleaving of concurrently handled inbound events and
reconciliation-sweep retries for one contact, consecutive automated wire
sends are at least 60 s apart, so every 60-second window contains at most
one automated reply to that contact. -/
theorem C1_at_most_one_per_window (s : St) (h : Reachable s) (a : ℕ) :
    Gap s.sends
    ∧ s.sends.countP (fun x => decide (a ≤ x ∧ x < a + 60000)) ≤ 1 := by
  have hinv := inv_reachable h
  exact ⟨hinv.gap, gap_window s.sends hinv.gap a⟩

def traceA : St :=
  { initSt with locked := some 0,
                pc := Function.update initSt.pc 0 PC.working, now := 0 }

def traceB : St :=
  { traceA with pc := Function.update traceA.pc 0 PC.sentMsg,
                sends := 5 :: traceA.sends, now := 5 }

def traceC : St :=
  { traceB with pc := Function.update traceB.pc 0 PC.recorded,
                last := some 6, now := 6 }

def traceD : St :=
  { traceC with locked := none,
                pc := Function.update traceC.pc 0 PC.done, now := 6 }

theorem traceD_reachable : Reachable traceD :=
  .step
    (.step
      (.step
        (.step .init
          (Step.guardAcquire initSt 0 0 rfl (le_refl 0) rfl
            (fun l h => by cases h)))
        (Step.sendWire traceA 0 5 rfl (Nat.zero_le 5) rfl))
      (Step.recordTime traceB 0 6 rfl (by norm_num [traceB]) rfl))
    (Step.releaseLock traceC 0 6 rfl (le_refl 6) rfl)

theorem C1_witness :
    Gap traceD.sends
    ∧ traceD.sends.countP (fun x => decide (0 ≤ x ∧ x < 0 + 60000)) ≤ 1 :=
  C1_at_most_one_per_window traceD traceD_reachable 0

end LockSys
